import Mathlib

/-!
Verification development for the retirement-guidance chat application.

Part 1 embeds the chat screen (`my-app/app/chat` screen, `handleSend`) as a
pure state-transition function: React state (`messages`, `input`, `isSending`)
becomes an explicit `ChatState`, the network (`fetch`) becomes an explicit
`FetchResult` parameter enumerating the environment behaviours the code
branches on, and `Date.now()` becomes explicit timestamp parameters.

Part 2 models the query-routing and session-orchestration core described by
the design document (Session Manager, Router, Specialist Responder,
Orchestrator); that component's code is not part of the checked sources, so
its definitions are modelled from the spec and marked as such.

Definitions come first; all lemmas and theorems follow.
-/

set_option autoImplicit false

namespace Chat

/-- Message role: the source type is the union literal `"user" | "assistant"`. -/
inductive Role where
  | user
  | assistant
deriving DecidableEq, Repr

/-- The `Message` record of the chat screen: `{ id, from, text }`. -/
structure Message where
  id : String
  «from» : Role
  text : String
deriving DecidableEq, Repr

/-- The React state of `ChatScreen`: `messages`, `input`, `isSending`. -/
structure ChatState where
  messages : List Message
  input : String
  isSending : Bool
deriving DecidableEq, Repr

/-- A JSON value, as far as the chat screen builds and reads them. -/
inductive Json where
  | str (s : String)
  | obj (fields : List (String × Json))

/-- The HTTP request issued by `handleSend` via `fetch`. -/
structure Request where
  url : String
  method : String
  contentType : String
  body : Json

/-- JavaScript `String.prototype.trim`: strips leading and trailing
whitespace. Embedded directly over the character list (the library `trim` is
byte-position based and is not used here). -/
def jsTrim (s : String) : String :=
  String.mk (((s.data.dropWhile Char.isWhitespace).reverse.dropWhile Char.isWhitespace).reverse)

/-- Environment behaviour of one `fetch` call, covering every branch the code
distinguishes: the fetch itself throwing, or a response with an `ok` flag, a
status code, and a body that either fails to parse as JSON (`none`) or parses
to an object whose optional `reply` field is the inner `Option String`. -/
inductive FetchResult where
  | fetchThrow
  | response (ok : Bool) (status : Nat) (json : Option (Option String))
deriving DecidableEq, Repr

/-- Fallback text used when the parsed body has no `reply` field
(`data.reply ?? "I had trouble reading..."`). -/
def missingReplyText : String :=
  "I had trouble reading the response from the retirement assistant. Please try asking your question again in a moment."

/-- Assistant text appended by the `catch` branch of `handleSend`. -/
def connectionErrorText : String :=
  "I’m sorry — I couldn’t reach the retirement resources assistant service. Please check that the backend server is running and try again."

/-- The user message appended immediately after a send is accepted. -/
def userMessageOf (content : String) (tU : Nat) : Message :=
  { id := "user-" ++ toString tU, «from» := Role.user, text := content }

/-- The request `handleSend` issues:
`fetch("http://localhost:8000/chat", { method: "POST", headers: {"Content-Type": "application/json"}, body: JSON.stringify({ message: content }) })`. -/
def requestOf (content : String) : Request :=
  { url := "http://localhost:8000/chat"
    method := "POST"
    contentType := "application/json"
    body := Json.obj [("message", Json.str content)] }

/-- The assistant message appended on the success path (`reply` present is the
server text, absent falls back to `missingReplyText`). -/
def assistantMessageOf (replyText : String) (tA : Nat) : Message :=
  { id := "assistant-" ++ toString tA, «from» := Role.assistant, text := replyText }

/-- The assistant message appended by the `catch` branch. -/
def errorMessageOf (tA : Nat) : Message :=
  { id := "assistant-error-" ++ toString tA, «from» := Role.assistant, text := connectionErrorText }

/-- Pure transition embedding `handleSend` of the chat screen. `textArg` is
the optional `text` argument (quick questions pass one, the send button
none); `env` is the behaviour of the single `fetch` call; `tU` and `tA` are
the two `Date.now()` readings. Returns the final state together with the
request that was issued, or `none` when the guard returned early. The
`try/catch/finally` shape of the source is compiled away: every throwing
branch (fetch failure, `!response.ok`, JSON parse failure) lands in the
catch appender, and the `finally` clearing of `isSending` is applied on
every completed path. -/
def handleSend (st : ChatState) (textArg : Option String) (env : FetchResult)
    (tU tA : Nat) : ChatState × Option Request :=
  let content := jsTrim (textArg.getD st.input)
  if content = "" || st.isSending then
    (st, none)
  else
    let st1 : ChatState := { st with isSending := true, input := "" }
    let st2 : ChatState := { st1 with messages := st1.messages ++ [userMessageOf content tU] }
    let withAssistant : String → ChatState := fun t =>
      { st2 with messages := st2.messages ++ [assistantMessageOf t tA] }
    let withError : ChatState :=
      { st2 with messages := st2.messages ++ [errorMessageOf tA] }
    let after : ChatState :=
      match env with
      | FetchResult.fetchThrow => withError
      | FetchResult.response ok _status json =>
        if !ok then withError
        else
          match json with
          | none => withError
          | some replyField => withAssistant (replyField.getD missingReplyText)
    ({ after with isSending := false }, some (requestOf content))

/-- The single message the accepted path appends after the user message,
one case per environment behaviour, as the code's branches produce it. -/
def responseMessage (env : FetchResult) (tA : Nat) : Message :=
  match env with
  | FetchResult.fetchThrow => errorMessageOf tA
  | FetchResult.response ok _status json =>
    if !ok then errorMessageOf tA
    else
      match json with
      | none => errorMessageOf tA
      | some replyField => assistantMessageOf (replyField.getD missingReplyText) tA

end Chat

namespace Core

/-- Modelled from the spec: the closed set of specialist domains plus the
fallback sentinel (the routing core's code is not among the checked
sources). -/
inductive Domain where
  | medicare
  | medicaid
  | localResources
  | fallback
deriving DecidableEq, Repr

/-- Modelled from the spec: a Turn record — role, text content, domain
attribution (null for user turns), and the per-session sequence number.
Timestamps are not needed by any verified property and are omitted. -/
structure Turn where
  role : Chat.Role
  text : String
  domain : Option Domain
  seq : Nat
deriving DecidableEq, Repr

/-- The caller-supplied part of a turn, before the manager assigns the
sequence number. -/
structure TurnInput where
  role : Chat.Role
  text : String
  domain : Option Domain
deriving DecidableEq, Repr

/-- The caller-visible content of a stored turn. -/
def contentOf (t : Turn) : TurnInput :=
  { role := t.role, text := t.text, domain := t.domain }

/-- Modelled from the spec: a Session — the append-only ordered turn sequence
and the nullable last-active-domain. -/
structure Session where
  turns : List Turn
  lastActiveDomain : Option Domain
deriving DecidableEq, Repr

def emptySession : Session := { turns := [], lastActiveDomain := none }

def mkTurn (seq : Nat) (inp : TurnInput) : Turn :=
  { role := inp.role, text := inp.text, domain := inp.domain, seq := seq }

/-- The turns a run of appends creates, numbered consecutively from `start`. -/
def mkTurns (start : Nat) : List TurnInput → List Turn
  | [] => []
  | inp :: rest => mkTurn start inp :: mkTurns (start + 1) rest

/-- Modelled from the spec: `append_turn` at session level — assigns the next
sequence number (turns are numbered from 1), stores the turn, and updates
`lastActiveDomain` when the turn carries a non-null domain attribution. -/
def appendTurnSession (s : Session) (inp : TurnInput) : Session × Turn :=
  let t := mkTurn (s.turns.length + 1) inp
  ({ turns := s.turns ++ [t],
     lastActiveDomain :=
       match inp.domain with
       | some d => some d
       | none => s.lastActiveDomain },
   t)

/-- Modelled from the spec: the keyed session store owned by the Session
Manager. Per-session mutual exclusion makes every interleaving of
`append_turn` calls on one session a sequential run, which is what this
model states. -/
structure Manager where
  sessions : List (String × Session)
deriving DecidableEq, Repr

def emptyManager : Manager := { sessions := [] }

def lookupSid : List (String × Session) → String → Option Session
  | [], _ => none
  | (k, v) :: rest, sid => if k = sid then some v else lookupSid rest sid

def setSid : List (String × Session) → String → Session → List (String × Session)
  | [], sid, s => [(sid, s)]
  | (k, v) :: rest, sid, s =>
    if k = sid then (k, s) :: rest else (k, v) :: setSid rest sid s

/-- Modelled from the spec: `get_or_create` — returns the existing session or
creates an empty one; idempotent. -/
def get_or_create (m : Manager) (sid : String) : Manager × Session :=
  match lookupSid m.sessions sid with
  | some s => (m, s)
  | none => ({ sessions := setSid m.sessions sid emptySession }, emptySession)

/-- Modelled from the spec: `append_turn` keyed by session id; fails with
`SessionNotFound` when the id is unknown and creation was not requested. -/
def append_turn (m : Manager) (sid : String) (inp : TurnInput) :
    Except String (Manager × Turn) :=
  match lookupSid m.sessions sid with
  | none => Except.error "SessionNotFound"
  | some s =>
    let st := appendTurnSession s inp
    Except.ok ({ sessions := setSid m.sessions sid st.1 }, st.2)

/-- Modelled from the spec: `history(session_id, limit?)` — the most recent
`limit` turns (default: all), oldest-first. -/
def history (m : Manager) (sid : String) (limit : Option Nat) :
    Option (List Turn) :=
  (lookupSid m.sessions sid).map fun s =>
    match limit with
    | none => s.turns
    | some k => s.turns.drop (s.turns.length - k)

/-- A sequential run of `append_turn` calls on one session. -/
def appendRun (m : Manager) (sid : String) : List TurnInput → Except String Manager
  | [] => Except.ok m
  | inp :: rest =>
    match append_turn m sid inp with
    | Except.error e => Except.error e
    | Except.ok (m', _) => appendRun m' sid rest

/-- Modelled from the spec: the Router's selection rule (the Router's code is
not among the checked sources). Signal strengths per domain are abstracted as
a score function into ℚ; the best-scoring domain wins, exact ties are broken
by the fixed precedence Medicare > Medicaid > Local-Resources, and if no
domain reaches the confidence threshold the decision is the Fallback
sentinel. -/
def route (threshold : ℚ) (score : Domain → ℚ) : Domain :=
  let best := max (score Domain.medicare) (max (score Domain.medicaid) (score Domain.localResources))
  if best < threshold then Domain.fallback
  else if score Domain.medicare = best then Domain.medicare
  else if score Domain.medicaid = best then Domain.medicaid
  else Domain.localResources

/-- Synthetic equal-strength signals for Medicare and Medicaid. -/
def scoreTie : Domain → ℚ := fun d =>
  match d with
  | Domain.medicare => 2
  | Domain.medicaid => 2
  | Domain.localResources => 1
  | Domain.fallback => 0

/-- Whether `pat` is an initial run of `l`. -/
def leadMatch : List Char → List Char → Bool
  | [], _ => true
  | _ :: _, [] => false
  | p :: ps, c :: cs => p == c && leadMatch ps cs

/-- The number of positions of `l` (its final position included) at which
`pat` occurs. -/
def countOccs (pat : List Char) : List Char → Nat
  | [] => if leadMatch pat [] then 1 else 0
  | c :: rest => (if leadMatch pat (c :: rest) then 1 else 0) + countOccs pat rest

/-- Modelled from the spec: a SpecialistResponse — reply text, the list of
provider names consulted (possibly empty), and the `needs_disclaimer`
flag. -/
structure SpecialistResponse where
  text : String
  providers_consulted : List String
  needs_disclaimer : Bool
deriving DecidableEq, Repr

/-- Modelled from the spec: the configured `disclaimer_text` setting (a fixed
verification-disclaimer suffix; the concrete wording is a sane default). -/
def disclaimerText : String :=
  " Please verify with official sources before acting on this information."

/-- Modelled from the spec: the Orchestrator amends the outbound reply with
the disclaimer suffix when `needs_disclaimer` is set, and does not duplicate
it when the specialist text already carries the exact suffix. -/
def applyDisclaimer (disc : String) (resp : SpecialistResponse) : String :=
  if resp.needs_disclaimer then
    if 0 < countOccs disc.data resp.text.data then resp.text else resp.text ++ disc
  else resp.text

/-- A specialist reply making a factual claim, with the disclaimer flag. -/
def sampleResponse : SpecialistResponse :=
  { text := "Medicare Part A covers inpatient hospital stays."
    providers_consulted := ["medicare-knowledge"]
    needs_disclaimer := true }

/-- The provider-failure outcome of spec section 7 (`ProviderUnavailable`). -/
inductive ProviderError where
  | unavailable
deriving DecidableEq, Repr

/-- Modelled from the spec: a Specialist Responder consulting one Knowledge
Provider. The provider call is fallible; on failure the responder degrades
to the general provider-free answer with `needs_disclaimer = true`. The
return type is a plain `SpecialistResponse`: the provider failure is caught
here and can never reach the caller as a hard error. -/
def respondWithProvider (provider : String → Except ProviderError String)
    (fromResult : String → SpecialistResponse) (generalText : String)
    (q : String) : SpecialistResponse :=
  match provider q with
  | Except.ok r => fromResult r
  | Except.error _ =>
    { text := generalText, providers_consulted := [], needs_disclaimer := true }

/-- A Knowledge Provider that is unavailable on every query. -/
def failingProvider : String → Except ProviderError String :=
  fun _ => Except.error ProviderError.unavailable

/-- The lookup-backed reply builder the responder would use on success. -/
def okBuilder : String → SpecialistResponse :=
  fun r => { text := r, providers_consulted := ["medicaid-knowledge"], needs_disclaimer := false }

end Core

namespace Chat

lemma handleSend_guard_eq (st : ChatState) (textArg : Option String) (env : FetchResult)
    (tU tA : Nat) (h : jsTrim (textArg.getD st.input) = "" ∨ st.isSending = true) :
    handleSend st textArg env tU tA = (st, none) := by
  unfold handleSend
  rw [if_pos]
  rcases h with h | h <;> simp [h]

lemma handleSend_accepted (st : ChatState) (textArg : Option String) (env : FetchResult)
    (tU tA : Nat) (hc : jsTrim (textArg.getD st.input) ≠ "") (hs : st.isSending = false) :
    handleSend st textArg env tU tA =
      ({ messages := st.messages ++
            [userMessageOf (jsTrim (textArg.getD st.input)) tU, responseMessage env tA],
         input := "", isSending := false },
       some (requestOf (jsTrim (textArg.getD st.input)))) := by
  unfold handleSend
  rw [if_neg (by simp [hc, hs])]
  cases env with
  | fetchThrow =>
      simp [responseMessage]
  | response ok status json =>
      cases ok with
      | false => simp [responseMessage]
      | true =>
          cases json with
          | none => simp [responseMessage]
          | some replyField => simp [responseMessage]

lemma responseMessage_cases (env : FetchResult) (tA : Nat) :
    (∃ s r, env = FetchResult.response true s (some (some r)) ∧
        responseMessage env tA = assistantMessageOf r tA) ∨
      responseMessage env tA = assistantMessageOf missingReplyText tA ∨
      responseMessage env tA = errorMessageOf tA := by
  cases env with
  | fetchThrow => right; right; rfl
  | response ok status json =>
      cases ok with
      | false => right; right; rfl
      | true =>
          cases json with
          | none => right; right; rfl
          | some replyField =>
              cases replyField with
              | none => right; left; rfl
              | some r => exact Or.inl ⟨status, r, rfl, rfl⟩

/-- C1: every accepted send issues exactly one POST to `/chat` whose body is
the JSON object `{message: content}` — a JSON object containing the message
string and no `session_id` field (absence permitted by the boundary) — and
when the response is ok with a `reply` string `r`, the client renders `r` as
the assistant message (it reads `data.reply`). -/
theorem handleSend_request_schema (st : ChatState) (textArg : Option String)
    (env : FetchResult) (tU tA : Nat)
    (hc : jsTrim (textArg.getD st.input) ≠ "") (hs : st.isSending = false) :
    (handleSend st textArg env tU tA).2 =
      some { url := "http://localhost:8000/chat", method := "POST",
             contentType := "application/json",
             body := Json.obj [("message", Json.str (jsTrim (textArg.getD st.input)))] } ∧
    (∀ s r, env = FetchResult.response true s (some (some r)) →
      (handleSend st textArg env tU tA).1.messages =
        st.messages ++ [userMessageOf (jsTrim (textArg.getD st.input)) tU,
          { id := "assistant-" ++ toString tA, «from» := Role.assistant, text := r }]) := by
  rw [handleSend_accepted st textArg env tU tA hc hs]
  constructor
  · rfl
  · rintro s r rfl
    simp [responseMessage, assistantMessageOf]

/-- Witness for C1 at a concrete state and environment. -/
theorem handleSend_request_schema_witness :
    (handleSend ⟨[], "hello", false⟩ none (FetchResult.response true 200 (some (some "hi"))) 3 4).2 =
      some { url := "http://localhost:8000/chat", method := "POST",
             contentType := "application/json",
             body := Json.obj [("message", Json.str "hello")] } ∧
    (handleSend ⟨[], "hello", false⟩ none (FetchResult.response true 200 (some (some "hi"))) 3 4).1.messages =
      [userMessageOf "hello" 3,
        { id := "assistant-" ++ toString 4, «from» := Role.assistant, text := "hi" }] := by
  have h := handleSend_request_schema ⟨[], "hello", false⟩ none
      (FetchResult.response true 200 (some (some "hi"))) 3 4 (by decide) rfl
  exact ⟨h.1, by simpa using h.2 200 "hi" rfl⟩

/-- C2: the chat screen only appends to the message list: whatever the
arguments and the environment, the resulting message list extends the prior
one, so every previously committed message keeps its id, role and text. -/
theorem handleSend_append_only (st : ChatState) (textArg : Option String)
    (env : FetchResult) (tU tA : Nat) :
    ∃ suffix, (handleSend st textArg env tU tA).1.messages = st.messages ++ suffix := by
  by_cases h : jsTrim (textArg.getD st.input) = "" ∨ st.isSending = true
  · exact ⟨[], by rw [handleSend_guard_eq st textArg env tU tA h, List.append_nil]⟩
  · push_neg at h
    rw [handleSend_accepted st textArg env tU tA h.1 (by simpa using h.2)]
    exact ⟨_, rfl⟩

/-- C3: error responses are clearly distinguished: a non-ok HTTP status lands
in the catch branch and renders the fixed connection-error text, a parsed
body with no `reply` field renders the fixed fallback notice, and only an ok
response with a `reply` string renders that string as the reply. -/
theorem handleSend_error_distinguished (st : ChatState) (textArg : Option String)
    (tU tA : Nat)
    (hc : jsTrim (textArg.getD st.input) ≠ "") (hs : st.isSending = false) :
    (∀ status json,
      (handleSend st textArg (FetchResult.response false status json) tU tA).1.messages =
        st.messages ++ [userMessageOf (jsTrim (textArg.getD st.input)) tU, errorMessageOf tA]) ∧
    (∀ status,
      (handleSend st textArg (FetchResult.response true status (some none)) tU tA).1.messages =
        st.messages ++ [userMessageOf (jsTrim (textArg.getD st.input)) tU,
          assistantMessageOf missingReplyText tA]) ∧
    (∀ status r,
      (handleSend st textArg (FetchResult.response true status (some (some r))) tU tA).1.messages =
        st.messages ++ [userMessageOf (jsTrim (textArg.getD st.input)) tU,
          assistantMessageOf r tA]) ∧
    missingReplyText ≠ connectionErrorText := by
  refine ⟨fun status json => ?_, fun status => ?_, fun status r => ?_, by decide⟩
  · rw [handleSend_accepted st textArg _ tU tA hc hs]; rfl
  · rw [handleSend_accepted st textArg _ tU tA hc hs]; rfl
  · rw [handleSend_accepted st textArg _ tU tA hc hs]; rfl

/-- Witness for C3 at a concrete state. -/
theorem handleSend_error_distinguished_witness :
    (handleSend ⟨[], "q", false⟩ none (FetchResult.response false 500 none) 1 2).1.messages =
      [userMessageOf "q" 1, errorMessageOf 2] ∧
    (handleSend ⟨[], "q", false⟩ none (FetchResult.response true 200 (some none)) 1 2).1.messages =
      [userMessageOf "q" 1, assistantMessageOf missingReplyText 2] := by
  have h := handleSend_error_distinguished ⟨[], "q", false⟩ none 1 2 (by decide) rfl
  exact ⟨by simpa using h.1 500 none, by simpa using h.2.1 200⟩

/-- C9: a call whose trimmed content is empty, or made while a send is in
flight, returns with the state untouched (messages, input, `isSending`) and
issues no request. -/
theorem handleSend_rejected (st : ChatState) (textArg : Option String)
    (env : FetchResult) (tU tA : Nat)
    (h : jsTrim (textArg.getD st.input) = "" ∨ st.isSending = true) :
    handleSend st textArg env tU tA = (st, none) :=
  handleSend_guard_eq st textArg env tU tA h

/-- Witness for C9: an all-whitespace input and an in-flight send are both
rejected without any state change. -/
theorem handleSend_rejected_witness :
    handleSend ⟨[], "   ", false⟩ none FetchResult.fetchThrow 1 2 = (⟨[], "   ", false⟩, none) ∧
    handleSend ⟨[], "hello", true⟩ none FetchResult.fetchThrow 1 2 = (⟨[], "hello", true⟩, none) :=
  ⟨handleSend_rejected ⟨[], "   ", false⟩ none FetchResult.fetchThrow 1 2 (Or.inl (by decide)),
   handleSend_rejected ⟨[], "hello", true⟩ none FetchResult.fetchThrow 1 2 (Or.inr rfl)⟩

/-- C10: every accepted send terminates with `isSending = false`, appends
exactly one user message followed by one assistant-side message, and that
message's text is the server reply, the fixed missing-reply fallback, or the
fixed connection-error text; `handleSend` is a total function, so no
exception escapes to the caller. -/
theorem handleSend_completes (st : ChatState) (textArg : Option String)
    (env : FetchResult) (tU tA : Nat)
    (hc : jsTrim (textArg.getD st.input) ≠ "") (hs : st.isSending = false) :
    (handleSend st textArg env tU tA).1.isSending = false ∧
    (handleSend st textArg env tU tA).1.messages =
      st.messages ++ [userMessageOf (jsTrim (textArg.getD st.input)) tU, responseMessage env tA] ∧
    (userMessageOf (jsTrim (textArg.getD st.input)) tU).«from» = Role.user ∧
    (responseMessage env tA).«from» = Role.assistant ∧
    ((∃ s r, env = FetchResult.response true s (some (some r)) ∧ (responseMessage env tA).text = r) ∨
      (responseMessage env tA).text = missingReplyText ∨
      (responseMessage env tA).text = connectionErrorText) := by
  rw [handleSend_accepted st textArg env tU tA hc hs]
  refine ⟨rfl, rfl, rfl, ?_, ?_⟩
  · rcases responseMessage_cases env tA with ⟨s, r, _, h⟩ | h | h <;> rw [h] <;> rfl
  · rcases responseMessage_cases env tA with ⟨s, r, henv, h⟩ | h | h
    · exact Or.inl ⟨s, r, henv, by rw [h]; rfl⟩
    · exact Or.inr (Or.inl (by rw [h]; rfl))
    · exact Or.inr (Or.inr (by rw [h]; rfl))

/-- Witness for C10 at a concrete accepted send with a network failure. -/
theorem handleSend_completes_witness :
    (handleSend ⟨[], "ping", false⟩ none FetchResult.fetchThrow 7 8).1.isSending = false ∧
    (handleSend ⟨[], "ping", false⟩ none FetchResult.fetchThrow 7 8).1.messages =
      [userMessageOf "ping" 7, responseMessage FetchResult.fetchThrow 8] := by
  have h := handleSend_completes ⟨[], "ping", false⟩ none FetchResult.fetchThrow 7 8 (by decide) rfl
  exact ⟨h.1, by simpa using h.2.1⟩

end Chat

namespace Core

lemma lookupSid_setSid (l : List (String × Session)) (sid : String) (s : Session) :
    lookupSid (setSid l sid s) sid = some s := by
  induction l with
  | nil => simp [setSid, lookupSid]
  | cons kv rest ih =>
      obtain ⟨k, v⟩ := kv
      by_cases h : k = sid
      · simp [setSid, lookupSid, h]
      · simp [setSid, lookupSid, h, ih]

lemma appendRun_spec (inputs : List TurnInput) :
    ∀ (m : Manager) (sid : String) (s : Session),
      lookupSid m.sessions sid = some s →
      ∃ m' : Manager, appendRun m sid inputs = Except.ok m' ∧
        ∃ s' : Session, lookupSid m'.sessions sid = some s' ∧
          s'.turns = s.turns ++ mkTurns (s.turns.length + 1) inputs := by
  induction inputs with
  | nil =>
      intro m sid s hlook
      exact ⟨m, rfl, s, hlook, by simp [mkTurns]⟩
  | cons inp rest ih =>
      intro m sid s hlook
      have happ : append_turn m sid inp =
          Except.ok ({ sessions := setSid m.sessions sid (appendTurnSession s inp).1 },
            (appendTurnSession s inp).2) := by
        unfold append_turn
        rw [hlook]
      have hrun : appendRun m sid (inp :: rest) =
          appendRun { sessions := setSid m.sessions sid (appendTurnSession s inp).1 } sid rest := by
        simp only [appendRun]
        rw [happ]
      obtain ⟨m', hm', s', hs', hturns⟩ :=
        ih { sessions := setSid m.sessions sid (appendTurnSession s inp).1 } sid
          (appendTurnSession s inp).1
          (lookupSid_setSid m.sessions sid (appendTurnSession s inp).1)
      refine ⟨m', by rw [hrun]; exact hm', s', hs', ?_⟩
      rw [hturns]
      simp [appendTurnSession, mkTurns, mkTurn]

lemma mkTurns_map_seq (inputs : List TurnInput) :
    ∀ start : Nat, (mkTurns start inputs).map Turn.seq = List.range' start inputs.length := by
  induction inputs with
  | nil => intro start; simp [mkTurns]
  | cons inp rest ih =>
      intro start
      simp [mkTurns, mkTurn, List.range'_succ, ih]

lemma mkTurns_map_contentOf (inputs : List TurnInput) :
    ∀ start : Nat, (mkTurns start inputs).map contentOf = inputs := by
  induction inputs with
  | nil => intro start; simp [mkTurns]
  | cons inp rest ih =>
      intro start
      simp only [mkTurns, List.map_cons, ih]
      rfl

lemma get_or_create_empty (sid : String) :
    lookupSid (get_or_create emptyManager sid).1.sessions sid = some emptySession := by
  simp [get_or_create, emptyManager, lookupSid, setSid]

/-- C4: starting from a freshly created session, any sequence of
`append_turn` calls succeeds and leaves the stored turns carrying exactly the
sequence numbers `1, 2, ..., N` — strictly increasing from 1, no gaps, no
duplicates. Per-session mutual exclusion (spec section 5) serializes
interleaved callers, so every interleaving is one such sequential run. -/
theorem append_turn_seq_numbers (sid : String) (inputs : List TurnInput) :
    ∃ m' : Manager,
      appendRun (get_or_create emptyManager sid).1 sid inputs = Except.ok m' ∧
      ∃ s' : Session, lookupSid m'.sessions sid = some s' ∧
        s'.turns.map Turn.seq = List.range' 1 inputs.length := by
  obtain ⟨m', hm', s', hs', hturns⟩ :=
    appendRun_spec inputs (get_or_create emptyManager sid).1 sid emptySession
      (get_or_create_empty sid)
  refine ⟨m', hm', s', hs', ?_⟩
  rw [hturns]
  simp [emptySession, mkTurns_map_seq]

/-- C5: round-trip — creating a session, appending N turns, then calling
`history(session_id)` with no limit returns exactly those N turns, oldest
first, in the order appended. -/
theorem history_round_trip (sid : String) (inputs : List TurnInput) :
    ∃ m' : Manager,
      appendRun (get_or_create emptyManager sid).1 sid inputs = Except.ok m' ∧
      ∃ ts : List Turn, history m' sid none = some ts ∧
        ts.map contentOf = inputs ∧ ts.length = inputs.length := by
  obtain ⟨m', hm', s', hs', hturns⟩ :=
    appendRun_spec inputs (get_or_create emptyManager sid).1 sid emptySession
      (get_or_create_empty sid)
  refine ⟨m', hm', s'.turns, ?_, ?_, ?_⟩
  · simp [history, hs']
  · rw [hturns]
    simp [emptySession, mkTurns_map_contentOf]
  · rw [hturns]
    have := congrArg List.length (mkTurns_map_contentOf inputs 1)
    simpa [emptySession] using this

/-- C6: `route` breaks exact ties deterministically by the precedence
Medicare > Medicaid > Local-Resources > Fallback: equal-strength top signals
for Medicare and Medicaid always yield Medicare; a Medicaid/Local-Resources
tie above Medicare yields Medicaid; and when every domain is below the
threshold the decision falls back. -/
theorem route_tiebreak (threshold : ℚ) (score : Domain → ℚ) :
    (score Domain.medicare = score Domain.medicaid →
      score Domain.localResources ≤ score Domain.medicare →
      threshold ≤ score Domain.medicare →
      route threshold score = Domain.medicare) ∧
    (score Domain.medicaid = score Domain.localResources →
      score Domain.medicare < score Domain.medicaid →
      threshold ≤ score Domain.medicaid →
      route threshold score = Domain.medicaid) ∧
    (score Domain.medicare < threshold →
      score Domain.medicaid < threshold →
      score Domain.localResources < threshold →
      route threshold score = Domain.fallback) := by
  refine ⟨fun h1 h2 h3 => ?_, fun h1 h2 h3 => ?_, fun h1 h2 h3 => ?_⟩
  · have hbest : max (score Domain.medicare)
        (max (score Domain.medicaid) (score Domain.localResources)) = score Domain.medicare := by
      rw [← h1, max_eq_left h2, max_self]
    unfold route
    rw [hbest, if_neg (not_lt.mpr h3), if_pos rfl]
  · have hbest : max (score Domain.medicare)
        (max (score Domain.medicaid) (score Domain.localResources)) = score Domain.medicaid := by
      rw [← h1, max_self, max_eq_right (le_of_lt h2)]
    unfold route
    rw [hbest, if_neg (not_lt.mpr h3), if_neg (ne_of_lt h2), if_pos rfl]
  · have hbest : max (score Domain.medicare)
        (max (score Domain.medicaid) (score Domain.localResources)) < threshold :=
      max_lt h1 (max_lt h2 h3)
    unfold route
    rw [if_pos hbest]

/-- Witness for C6: with equal Medicare/Medicaid signals above the threshold,
`route` returns Medicare. -/
theorem route_tiebreak_witness : route 1 scoreTie = Domain.medicare :=
  (route_tiebreak 1 scoreTie).1 rfl (by norm_num [scoreTie]) (by norm_num [scoreTie])

lemma leadMatch_length : ∀ {pat l : List Char}, leadMatch pat l = true → pat.length ≤ l.length := by
  intro pat
  induction pat with
  | nil => intro l _; simp
  | cons p ps ih =>
      intro l h
      cases l with
      | nil => simp [leadMatch] at h
      | cons c cs =>
          simp only [leadMatch, Bool.and_eq_true] at h
          simpa using Nat.succ_le_succ (ih h.2)

lemma leadMatch_refl : ∀ l : List Char, leadMatch l l = true := by
  intro l
  induction l with
  | nil => rfl
  | cons c cs ih => simp [leadMatch, ih]

lemma countOccs_short {pat : List Char} (hp : pat ≠ []) :
    ∀ {l : List Char}, l.length < pat.length → countOccs pat l = 0 := by
  intro l
  induction l with
  | nil =>
      intro _
      cases pat with
      | nil => exact absurd rfl hp
      | cons p ps => simp [countOccs, leadMatch]
  | cons c cs ih =>
      intro h
      have h1 : leadMatch pat (c :: cs) = false := by
        cases hlm : leadMatch pat (c :: cs) with
        | false => rfl
        | true => exact absurd (leadMatch_length hlm) (by simp at h ⊢; omega)
      have h2 : countOccs pat cs = 0 := ih (by simp at h ⊢; omega)
      simp [countOccs, h1, h2]

lemma leadMatch_append_left : ∀ (pat l t : List Char), pat.length ≤ l.length →
    leadMatch pat (l ++ t) = leadMatch pat l := by
  intro pat
  induction pat with
  | nil => intro l t _; simp [leadMatch]
  | cons p ps ih =>
      intro l t h
      cases l with
      | nil => simp at h
      | cons c cs =>
          simp only [List.cons_append, leadMatch]
          rw [show cs.append t = cs ++ t from rfl, ih cs t (by simpa using h)]

lemma leadMatch_eq_take : ∀ {pat l : List Char}, leadMatch pat l = true →
    pat = l.take pat.length := by
  intro pat
  induction pat with
  | nil => intro l _; rfl
  | cons p ps ih =>
      intro l h
      cases l with
      | nil => simp [leadMatch] at h
      | cons c cs =>
          simp only [leadMatch, Bool.and_eq_true, beq_iff_eq] at h
          simp only [List.length_cons, List.take_succ_cons]
          rw [h.1, ← ih h.2]

lemma leadMatch_span {pat s : List Char} (hlen : s.length < pat.length)
    (h : leadMatch pat (s ++ pat) = true) : s = pat.take s.length := by
  have h1 : pat = (s ++ pat).take pat.length := leadMatch_eq_take h
  have h2 : (s ++ pat).take pat.length = s ++ pat.take (pat.length - s.length) := by
    rw [List.take_append_eq_append_take, List.take_of_length_le (le_of_lt hlen)]
  have h3 := congrArg (List.take s.length) (h1.trans h2)
  rw [List.take_left] at h3
  exact h3.symm

lemma countOccs_append_self {pat : List Char} (hp : pat ≠ [])
    (hno : ∀ j, j < pat.length → 0 < j → leadMatch pat (pat.take j ++ pat) = false) :
    ∀ text : List Char, countOccs pat text = 0 → countOccs pat (text ++ pat) = 1 := by
  intro text
  induction text with
  | nil =>
      intro _
      cases pat with
      | nil => exact absurd rfl hp
      | cons p ps =>
          have hshort : countOccs (p :: ps) ps = 0 := countOccs_short hp (by simp)
          simp [countOccs, leadMatch_refl, hshort]
  | cons c rest ih =>
      intro h0
      cases hlm : leadMatch pat (c :: rest) with
      | true => rw [countOccs, hlm] at h0; simp at h0
      | false =>
          have hrest : countOccs pat rest = 0 := by
            rw [countOccs, hlm] at h0
            simpa using h0
          have hih := ih hrest
          have hheadfalse : leadMatch pat (c :: (rest ++ pat)) = false := by
            cases hlm2 : leadMatch pat (c :: (rest ++ pat)) with
            | false => rfl
            | true =>
                exfalso
                rw [show c :: (rest ++ pat) = (c :: rest) ++ pat from rfl] at hlm2
                by_cases hlen : pat.length ≤ (c :: rest).length
                · rw [leadMatch_append_left pat (c :: rest) pat hlen, hlm] at hlm2
                  exact Bool.noConfusion hlm2
                · push_neg at hlen
                  have hs := leadMatch_span hlen hlm2
                  have hcontra := hno (c :: rest).length hlen (by simp)
                  rw [← hs, hlm2] at hcontra
                  exact Bool.noConfusion hcontra
          rw [List.cons_append, countOccs, hheadfalse, hih]
          simp

lemma disclaimer_no_self_overlap :
    ∀ j, j < disclaimerText.data.length → 0 < j →
      leadMatch disclaimerText.data (disclaimerText.data.take j ++ disclaimerText.data) = false := by
  decide

/-- C7: whenever `needs_disclaimer` is set, the outbound reply contains the
exact configured disclaimer suffix exactly once — not duplicated even when
the specialist text already carries it (or merely resembles it, in which
case it contains no exact copy and one is appended). The hypothesis rules
out a specialist text that already contains two exact copies. -/
theorem disclaimer_exactly_once (resp : SpecialistResponse)
    (hn : resp.needs_disclaimer = true)
    (hc : countOccs disclaimerText.data resp.text.data ≤ 1) :
    countOccs disclaimerText.data (applyDisclaimer disclaimerText resp).data = 1 := by
  unfold applyDisclaimer
  rw [if_pos hn]
  rcases Nat.eq_zero_or_pos (countOccs disclaimerText.data resp.text.data) with h0 | hpos
  · rw [if_neg (by omega), String.data_append]
    exact countOccs_append_self (by decide) disclaimer_no_self_overlap resp.text.data h0
  · rw [if_pos hpos]
    omega

/-- Witness for C7 on a concrete flagged response. -/
theorem disclaimer_exactly_once_witness :
    countOccs disclaimerText.data (applyDisclaimer disclaimerText sampleResponse).data = 1 :=
  disclaimer_exactly_once sampleResponse rfl (by decide)

/-- C8: whenever the consulted provider raises an error, the responder
returns the general provider-free answer (no providers consulted) with
`needs_disclaimer = true`; being a total function into `SpecialistResponse`,
it never surfaces the provider failure as a hard error. -/
theorem provider_failure_degrades (provider : String → Except ProviderError String)
    (fromResult : String → SpecialistResponse) (generalText q : String)
    (e : ProviderError) (h : provider q = Except.error e) :
    (respondWithProvider provider fromResult generalText q).needs_disclaimer = true ∧
    (respondWithProvider provider fromResult generalText q).providers_consulted = [] ∧
    (respondWithProvider provider fromResult generalText q).text = generalText := by
  unfold respondWithProvider
  rw [h]
  exact ⟨rfl, rfl, rfl⟩

/-- Witness for C8 on a concrete failing provider call. -/
theorem provider_failure_degrades_witness :
    (respondWithProvider failingProvider okBuilder "General Medicaid guidance." "eligibility").needs_disclaimer = true ∧
    (respondWithProvider failingProvider okBuilder "General Medicaid guidance." "eligibility").providers_consulted = [] ∧
    (respondWithProvider failingProvider okBuilder "General Medicaid guidance." "eligibility").text = "General Medicaid guidance." :=
  provider_failure_degrades failingProvider okBuilder "General Medicaid guidance." "eligibility"
    ProviderError.unavailable rfl

end Core
